import Mathlib

/-!
Verification of the Risk gameboard agent core against its specification.

The definitions below are a shallow embedding of the repository's Python
sources:
  * `agents/risk_rules.py`   — the legal-action rule engine,
  * `agents/risk_api.py`     — the snapshot parser (`_parse_game_state`),
  * `agents/game_orchestrator.py` — the phase handlers of the orchestrator.

Python dictionaries become association lists, Python sets become lists with
membership, exceptions become `Except`, and the unbounded `while` loops of
the orchestrator become fuel-indexed recursions whose fuel exhaustion is
reported by a dedicated outcome constructor.
-/

/-! ## Data model (from `agents/risk_api.py`) -/

/-- The game phases (`GamePhase` in `risk_api.py`). -/
inductive GamePhase where
  | REINFORCE
  | ATTACK
  | FORTIFY
  | MOVE_ARMIES
deriving DecidableEq, Repr

/-- A territory on the board (`Territory` dataclass). -/
structure Territory where
  name : String
  owner : Option String
  armies : Nat
  continent : String
  adjacent_territories : List String
deriving DecidableEq, Repr

/-- A player record in the shape consumed by `risk_rules.py`: the raw
server dictionary with per-territory army counts (`player['armies']` is a
territory-name-keyed dict there). -/
structure PlayerR where
  id : Int
  name : String
  territories : List String
  armies : List (String × Nat)
  cards : List String
deriving DecidableEq, Repr

/-- A game snapshot in the shape consumed by `risk_rules.py`
(`game_state.territories` a name-keyed map, `game_state.players` an
iterable of player records). -/
structure GameState where
  territories : List (String × Territory)
  players : List PlayerR
  current_player : String
  phase : GamePhase
  reinforcement_armies : Nat
deriving DecidableEq, Repr

/-- Dictionary lookup `game_state.territories.get(name)`. -/
def findTerritory : List (String × Territory) → String → Option Territory
  | [], _ => none
  | (k, t) :: rest, name => if k = name then some t else findTerritory rest name

/-- Dictionary lookup with default `player['armies'].get(name, 0)`. -/
def lookupArmies : List (String × Nat) → String → Nat
  | [], _ => 0
  | (k, n) :: rest, name => if k = name then n else lookupArmies rest name

/-- The first player whose territory list contains `t`
(the owner search loop in `get_valid_attack_actions`). -/
def findOwner (players : List PlayerR) (t : String) : Option String :=
  match players.find? (fun p => decide (t ∈ p.territories)) with
  | some p => some p.name
  | none => none

/-! ## Legal-action rule engine (from `agents/risk_rules.py`) -/

/-- A reinforce action `{ 'territory': str, 'max_armies': int }`. -/
structure ReinforceAction where
  territory : String
  max_armies : Nat
deriving DecidableEq, Repr

/-- An attack action `{ 'from': str, 'to': str, 'max_dice': int }`. -/
structure AttackAction where
  from_ : String
  to_ : String
  max_dice : Nat
deriving DecidableEq, Repr

/-- A fortify action `{ 'from': str, 'to': str, 'max_armies': int }`. -/
structure FortifyAction where
  from_ : String
  to_ : String
  max_armies : Nat
deriving DecidableEq, Repr

/-- `get_valid_reinforce_actions(game_state, player, risk_client)`.
`risk_client` carries the value a fresh `get_reinforcement_armies()` read
would return (`some n`), or `none` when no client is passed, in which case
the code falls back to `getattr(game_state, 'reinforcement_armies', 0)`. -/
def get_valid_reinforce_actions (game_state : GameState) (player : PlayerR)
    (risk_client : Option Nat) : List ReinforceAction :=
  if game_state.phase ≠ GamePhase.REINFORCE then []
  else
    let reinforcement_armies :=
      match risk_client with
      | some n => n
      | none => game_state.reinforcement_armies
    if reinforcement_armies = 0 then []
    else player.territories.map (fun t => ⟨t, reinforcement_armies⟩)

/-- `get_valid_attack_actions(game_state, player)`. -/
def get_valid_attack_actions (game_state : GameState) (player : PlayerR) :
    List AttackAction :=
  if game_state.phase ≠ GamePhase.ATTACK then []
  else
    player.territories.flatMap (fun from_territory_name =>
      match findTerritory game_state.territories from_territory_name with
      | none => []
      | some from_territory =>
        let armies_in_territory := lookupArmies player.armies from_territory_name
        if armies_in_territory ≤ 1 then []
        else
          let max_dice := min (armies_in_territory - 1) 3
          if max_dice = 0 then []
          else
            from_territory.adjacent_territories.flatMap (fun adjacent_name =>
              match findOwner game_state.players adjacent_name with
              | none => []
              | some adjacent_owner =>
                if adjacent_owner = player.name then []
                else [⟨from_territory_name, adjacent_name, max_dice⟩]))

/-- Total length of all adjacency lists; used as the fuel bound under which
the breadth-first search of `_find_connected_territories` provably drains
its queue (the Python `while queue:` loop always terminates for this
reason). -/
def totalAdj (ts : List (String × Territory)) : Nat :=
  (ts.map (fun kt => kt.2.adjacent_territories.length)).sum

/-- The body of the `while queue:` loop of `_find_connected_territories`,
fuel-indexed.  Each fuel step pops one queue element, exactly as one
iteration of the Python loop does. -/
def bfsLoop (ts : List (String × Territory)) (owned : List String) :
    Nat → List String → List String → List String
  | _, visited, [] => visited
  | 0, visited, _ :: _ => visited
  | fuel + 1, visited, current :: queue =>
    if current ∈ visited then bfsLoop ts owned fuel visited queue
    else
      let visited1 := current :: visited
      match findTerritory ts current with
      | none => bfsLoop ts owned fuel visited1 queue
      | some t =>
        bfsLoop ts owned fuel visited1
          (queue ++ t.adjacent_territories.filter
            (fun a => decide (¬ a ∈ visited1 ∧ a ∈ owned)))

/-- `_find_connected_territories(game_state, player, start, owned_set)`:
breadth-first search from `start_territory` following adjacency edges into
territories of `player_territories_set` only. -/
def find_connected_territories (game_state : GameState) (start_territory : String)
    (player_territories_set : List String) : List String :=
  bfsLoop game_state.territories player_territories_set
    (1 + totalAdj game_state.territories) [] [start_territory]

/-- `get_valid_fortify_actions(game_state, player)`. -/
def get_valid_fortify_actions (game_state : GameState) (player : PlayerR) :
    List FortifyAction :=
  if game_state.phase ≠ GamePhase.FORTIFY then []
  else
    let player_territories_set := player.territories
    player.territories.flatMap (fun from_territory_name =>
      match findTerritory game_state.territories from_territory_name with
      | none => []
      | some _ =>
        let armies_in_territory := lookupArmies player.armies from_territory_name
        if armies_in_territory ≤ 1 then []
        else
          let max_armies := armies_in_territory - 1
          if max_armies = 0 then []
          else
            ((find_connected_territories game_state from_territory_name
                player_territories_set).filter
              (fun t => decide (t ≠ from_territory_name))).map
              (fun to_territory_name => ⟨from_territory_name, to_territory_name, max_armies⟩))

/-- All strictly increasing index triples below `n`, in the lexicographic
order produced by `itertools.combinations(range(n), 3)`. -/
def combinations3 (n : Nat) : List (List Nat) :=
  (List.range n).flatMap (fun i =>
    (List.range n).flatMap (fun j =>
      (List.range n).flatMap (fun k =>
        if i < j ∧ j < k then [[i, j, k]] else [])))

/-- `_is_valid_card_combination(cards)`. -/
def is_valid_card_combination (cards : List String) : Bool :=
  if cards.length ≠ 3 then false
  else
    let infantry_count := cards.count "Infantry"
    let cavalry_count := cards.count "Cavalry"
    let artillery_count := cards.count "Artillery"
    let joker_count := cards.count "Joker"
    if infantry_count = 3 ∨ cavalry_count = 3 ∨ artillery_count = 3 then true
    else if infantry_count = 1 ∧ cavalry_count = 1 ∧ artillery_count = 1 then true
    else if 0 < joker_count ∧ joker_count < 3 ∧
        infantry_count + cavalry_count + artillery_count + joker_count = 3 then true
    else false

/-- `get_valid_card_trade_actions(game_state, player)`; each action is the
`card_indices` list of a valid 3-card combination. -/
def get_valid_card_trade_actions (game_state : GameState) (player : PlayerR) :
    List (List Nat) :=
  if game_state.phase ≠ GamePhase.REINFORCE then []
  else if player.cards.length < 3 then []
  else (combinations3 player.cards.length).filter (fun combo =>
    is_valid_card_combination (combo.map (fun i => player.cards.getD i "")))

/-! ## Textual response classification (from `game_orchestrator.py`) -/

/-- Substring occurrence on character lists. -/
def isInfixB (needle : List Char) : List Char → Bool
  | [] => needle.isEmpty
  | c :: rest => needle.isPrefixOf (c :: rest) || isInfixB needle rest

/-- `result.lower()` character-wise (the orchestrator's markers are all
ASCII, where Python's `str.lower` agrees with per-character lowering). -/
def lowerData (s : String) : List Char :=
  s.data.map Char.toLower

/-- Python `needle in result.lower()` for a lowercase literal `needle`. -/
def containsTxt (haystack needle : String) : Bool :=
  isInfixB needle.data (lowerData haystack)

/-- A character of the regex class `\s`. -/
def isSpaceChar (c : Char) : Bool :=
  c = ' ' ∨ c = '\t' ∨ c = '\n' ∨ c = '\r' ∨ c = '\x0b' ∨ c = '\x0c'

/-- After the literal `fortify`, skip whitespace and require `(`. -/
def wsThenParen : List Char → Bool
  | [] => false
  | c :: rest => if c = '(' then true else if isSpaceChar c then wsThenParen rest else false

/-- `re.search(r"fortify\s*\(", result, re.IGNORECASE)` on the lowercased
character list. -/
def hasFortifyCall : List Char → Bool
  | [] => false
  | c :: rest =>
    ("fortify".data.isPrefixOf (c :: rest) && wsThenParen ((c :: rest).drop 7))
      || hasFortifyCall rest

/-- The fallback-detection condition of `_handle_fortify_phase`
(line 306), with Python's `or`/`and` precedence. -/
def fortifyTextCall (result : String) : Bool :=
  hasFortifyCall (lowerData result)
    || containsTxt result "ollama.fortify"
    || (containsTxt result "fortify"
        && !containsTxt result "function calling"
        && !containsTxt result "executed actions")

/-! ## Snapshot parsing (from `agents/risk_api.py`, `_parse_game_state`)

The raw service response (`data.get("game_state", data)`).  Evidence across
the repository (`generate_testdata.py`, `sample_game_states_v2.py`,
`workflow_agent/loop_agent.py` all read `state.get("game_over", False)`)
shows the service response carries a `game_over` flag; the parser in
`risk_api.py` never reads it, which is what the `game_over` field below
lets us state. -/

/-- A raw board territory entry. -/
structure RawTerritory where
  continent : Option String
  adjacent_territories : List String
deriving DecidableEq, Repr

/-- A raw player entry of the service response. -/
structure RawPlayer where
  id : Option Int
  name : String
  territories : List String
  armies : List (String × Nat)
  army_supply : Nat
  cards : List String
deriving DecidableEq, Repr

/-- The raw `game_state` object of the service response.  Optional fields
model `dict.get` defaults. -/
structure RawGameData where
  board_territories : List (String × RawTerritory)
  players : List RawPlayer
  current_player : Option String
  turn_phase : Option String
  reinforcement_armies : Nat
  current_turn : Nat
  defeated_players : List String
  winner : Option String
  game_over : Option Bool
deriving DecidableEq, Repr

/-- The `Player` dataclass produced by the parser (`armies` is a single
number here, unlike the per-territory map the rule engine reads). -/
structure ParsedPlayer where
  id : Int
  name : String
  territories : List String
  armies : Nat
  cards : List String
  total_armies : Nat
deriving DecidableEq, Repr

/-- The `GameState` dataclass produced by the parser. -/
structure ParsedGameState where
  territories : List (String × Territory)
  players : List (String × ParsedPlayer)
  current_player : String
  phase : GamePhase
  current_turn : Nat
  game_over : Bool
  winner : Option String
deriving DecidableEq, Repr

/-- `player_data.get("armies", {}).get(name, d)`. -/
def lookupArmiesD : List (String × Nat) → String → Nat → Nat
  | [], _, d => d
  | (k, n) :: rest, name, d => if k = name then n else lookupArmiesD rest name d

/-- Python dict assignment `d[k] = v`: replace in place or append. -/
def dictInsert {β : Type} : List (String × β) → String → β → List (String × β)
  | [], k, v => [(k, v)]
  | (k1, v1) :: rest, k, v =>
    if k1 = k then (k, v) :: rest else (k1, v1) :: dictInsert rest k v

/-- `_parse_game_state` (lines 151-226 of `risk_api.py`).  Note the
`game_over` of the result: `len(game_data.get("defeated_players", [])) >=
len(players) - 1`, computed from the parsed player dictionary — the
service's own `game_over` flag is not consulted. -/
def parse_game_state (game_data : RawGameData) : ParsedGameState :=
  let territories := game_data.board_territories.map (fun kt =>
    (kt.1,
      match game_data.players.find? (fun p => decide (kt.1 ∈ p.territories)) with
      | some p =>
        { name := kt.1, owner := some p.name,
          armies := lookupArmiesD p.armies kt.1 1,
          continent := kt.2.continent.getD "Unknown",
          adjacent_territories := kt.2.adjacent_territories : Territory }
      | none =>
        { name := kt.1, owner := none, armies := 1,
          continent := kt.2.continent.getD "Unknown",
          adjacent_territories := kt.2.adjacent_territories : Territory }))
  let current_player_name := game_data.current_player.getD "Unknown"
  let players := game_data.players.foldl (fun acc p =>
    let armies :=
      if (game_data.turn_phase.getD "").toLower = "reinforce"
          ∧ p.name = current_player_name
      then game_data.reinforcement_armies else p.army_supply
    let total_armies := (p.armies.map Prod.snd).sum
    dictInsert acc p.name
      { id := p.id.getD (-1), name := p.name, territories := p.territories,
        armies := armies, cards := p.cards, total_armies := total_armies }) []
  let phase_str := (game_data.turn_phase.getD "reinforce").toLower
  let phase :=
    if phase_str = "reinforce" then GamePhase.REINFORCE
    else if phase_str = "attack" then GamePhase.ATTACK
    else if phase_str = "fortify" then GamePhase.FORTIFY
    else if phase_str = "movearmies" then GamePhase.MOVE_ARMIES
    else GamePhase.REINFORCE
  { territories := territories, players := players,
    current_player := current_player_name, phase := phase,
    current_turn := game_data.current_turn,
    game_over :=
      decide ((game_data.defeated_players.length : Int) ≥ (players.length : Int) - 1),
    winner := game_data.winner }

/-! ## Orchestrator phase handlers (from `game_orchestrator.py`)

The handlers operate on the PARSED snapshot: `risk_client.get_game_state()`
returns the `GameState`/`Player` dataclasses produced by
`_parse_game_state` (`ParsedGameState`/`ParsedPlayer` here), whose
`players` is a name-keyed dictionary and whose `armies` is a single
number.  The rule functions of `risk_rules.py`, however, subscript their
`player` argument like a raw dictionary (`player['cards']` at line 184,
`player['territories']` at lines 38/62/112); on a parsed `Player`
dataclass (or on `None`) that subscript raises `TypeError`.  Each
rule-engine call the orchestrator makes is therefore embedded as
`Except String`, returning normally exactly on the paths the real call
completes — the phase guard and, for reinforce, the fresh pool-is-zero
check run before any player subscript — and raising where the source
raises. -/

/-- The external world as the orchestrator sees it: remote service client
plus decision agent.  `getState` is `risk_client.get_game_state()` (the
parsed shape), `getReinforcement` is `get_reinforcement_armies()`,
`agentTurn` is `agent.take_turn(None)` returning the textual result and
the world after whatever the agent did, `agentTime` is how long that
invocation takes (consulted only by `asyncio.wait_for`). -/
structure Server (σ : Type) where
  getState : σ → ParsedGameState
  getReinforcement : σ → Nat
  tradeCards : σ → Int → List Nat → Except String σ
  advancePhase : σ → σ
  agentTurn : σ → Except String (String × σ)
  agentTime : σ → Nat

/-- Observable events emitted by a phase handler. -/
inductive Ev where
  | trade (indices : List Nat)
  | agent
  | advance
deriving DecidableEq, Repr

/-- Outcome of a handler: normal return, a propagating Python exception, or
fuel exhaustion (the embedded `while` loop did not finish within the given
number of iterations). -/
inductive HOut (σ : Type) where
  | ok (s : σ)
  | err (e : String)
  | fuelOut
deriving DecidableEq, Repr

/-- `game_state.players.get(agent.name)` on the parsed dictionary. -/
def findParsedPlayer : List (String × ParsedPlayer) → String → Option ParsedPlayer
  | [], _ => none
  | (k, p) :: rest, name => if k = name then some p else findParsedPlayer rest name

/-- The exception Python raises when `risk_rules` subscripts the parsed
`Player` dataclass. -/
def playerSubscriptError : String := "TypeError: 'Player' object is not subscriptable"

/-- The same failure when `my_player` is `None`. -/
def noneSubscriptError : String := "TypeError: 'NoneType' object is not subscriptable"

/-- `get_valid_card_trade_actions(game_state, my_player)` as the
orchestrator invokes it (`risk_rules.py` lines 170-205 applied to a parsed
player): the phase guard (line 180) returns `[]` before any player access;
otherwise the first subscript `len(player['cards'])` (line 184) raises. -/
def card_trade_actions_on_parsed (gs : ParsedGameState)
    (pOpt : Option ParsedPlayer) : Except String (List (List Nat)) :=
  if gs.phase ≠ GamePhase.REINFORCE then Except.ok []
  else
    match pOpt with
    | some _ => Except.error playerSubscriptError
    | none => Except.error noneSubscriptError

/-- `get_valid_reinforce_actions(game_state, my_player, risk_client)` as
the orchestrator invokes it (`risk_rules.py` lines 14-44 applied to a
parsed player): the phase guard and the fresh `reinforcement_armies == 0`
check (lines 25-35) run before any player access; otherwise
`player['territories']` (line 38) raises. -/
def reinforce_actions_on_parsed (gs : ParsedGameState)
    (pOpt : Option ParsedPlayer) (reinforcement_armies : Nat) :
    Except String (List ReinforceAction) :=
  if gs.phase ≠ GamePhase.REINFORCE then Except.ok []
  else if reinforcement_armies = 0 then Except.ok []
  else
    match pOpt with
    | some _ => Except.error playerSubscriptError
    | none => Except.error noneSubscriptError

/-- `get_valid_attack_actions(game_state, my_player)` as the orchestrator
invokes it (`risk_rules.py` lines 47-94 applied to a parsed player): the
phase guard (line 58) returns `[]`; otherwise `player['territories']`
(line 62) raises. -/
def attack_actions_on_parsed (gs : ParsedGameState) (_p : ParsedPlayer) :
    Except String (List AttackAction) :=
  if gs.phase ≠ GamePhase.ATTACK then Except.ok []
  else Except.error playerSubscriptError

/-- `get_valid_fortify_actions(game_state, my_player)` as the orchestrator
invokes it (`risk_rules.py` lines 97-144 applied to a parsed player): the
phase guard (line 108) returns `[]`; otherwise
`set(player['territories'])` (line 112) raises. -/
def fortify_actions_on_parsed (gs : ParsedGameState) (_p : ParsedPlayer) :
    Except String (List FortifyAction) :=
  if gs.phase ≠ GamePhase.FORTIFY then Except.ok []
  else Except.error playerSubscriptError

/-- The forced card-trade loop of `_handle_reinforce_phase`
(lines 136-148).  The `while` condition evaluates `len(my_player.cards)`
first, which itself raises when the player vanished (`my_player` is
`None`); the trade call, the state refresh and the recomputation of
`valid_trades` run inside `try`, so an exception there is caught and
breaks the loop with the already-reassigned variables. -/
def tradeLoop {σ : Type} (srv : Server σ) (name : String) :
    Nat → σ → ParsedGameState → Option ParsedPlayer → List (List Nat) →
      List Ev × HOut (σ × ParsedGameState × Option ParsedPlayer)
  | _, _, _, none, _ =>
    ([], .err "AttributeError: 'NoneType' object has no attribute 'cards'")
  | 0, s, gs, some p, valid_trades =>
    if 5 ≤ p.cards.length ∧ valid_trades ≠ [] then ([], .fuelOut)
    else ([], .ok (s, gs, some p))
  | fuel + 1, s, gs, some p, valid_trades =>
    if 5 ≤ p.cards.length ∧ valid_trades ≠ [] then
      match valid_trades with
      | [] => ([], .ok (s, gs, some p))
      | trade_action :: _ =>
        match srv.tradeCards s p.id trade_action with
        | .error _ => ([.trade trade_action], .ok (s, gs, some p))
        | .ok s1 =>
          let gs1 := srv.getState s1
          let p1opt := findParsedPlayer gs1.players name
          match card_trade_actions_on_parsed gs1 p1opt with
          | .error _ => ([.trade trade_action], .ok (s1, gs1, p1opt))
          | .ok trades1 =>
            let res := tradeLoop srv name fuel s1 gs1 p1opt trades1
            (.trade trade_action :: res.1, res.2)
    else ([], .ok (s, gs, some p))

/-- The army-placement loop of `_handle_reinforce_phase` (lines 170-232):
`retry_count` against the hard-coded budget `max_retries = 10`; a fresh
pool read each iteration; the agent invocation is NOT wrapped in
`try`/`except`, so an agent exception propagates.  (On parsed snapshots
this loop is unreachable — the handler raises earlier — but it is
embedded faithfully.) -/
def reinforceAgentLoop {σ : Type} (srv : Server σ) :
    Nat → Nat → σ → List Ev × HOut σ
  | fuel, retry_count, s =>
    if retry_count < 10 then
      let current_armies := srv.getReinforcement s
      if current_armies = 0 then ([], .ok s)
      else
        match fuel with
        | 0 => ([], .fuelOut)
        | fuel + 1 =>
          match srv.agentTurn s with
          | .error e => ([.agent], .err e)
          | .ok (result, s1) =>
            let armies_after := srv.getReinforcement s1
            let success :=
              (containsTxt result "reinforced" && decide (armies_after < current_armies))
              || (containsTxt result "traded cards" && containsTxt result "bonus armies")
            let retry1 := if success then 0 else retry_count
            if containsTxt result "error" || containsTxt result "invalid"
                || containsTxt result "must"
                || containsTxt result "card_indices must be between"
                || containsTxt result "must trade exactly 3 cards" then
              if 10 ≤ retry1 + 1 then ([.agent, .advance], .ok (srv.advancePhase s1))
              else
                let res := reinforceAgentLoop srv fuel (retry1 + 1) s1
                (.agent :: res.1, res.2)
            else if !success && decide (armies_after = current_armies) then
              if 10 ≤ retry1 + 1 then ([.agent, .advance], .ok (srv.advancePhase s1))
              else
                let res := reinforceAgentLoop srv fuel (retry1 + 1) s1
                (.agent :: res.1, res.2)
            else
              let res := reinforceAgentLoop srv fuel retry1 s1
              (.agent :: res.1, res.2)
    else ([], .ok s)

/-- `_handle_reinforce_phase` (lines 113-232).  On a Reinforce snapshot
the initial `get_valid_card_trade_actions(game_state, my_player)` call at
line 134 — outside any `try` — raises `TypeError` (the parsed `Player`
dataclass is not subscriptable), so the handler aborts before any trade,
any pool check and any agent invocation.  The remaining code — forced
trades, pool check, placement loop — is embedded faithfully and is
reachable only when the refetched snapshot's phase is no longer
Reinforce. -/
def handle_reinforce_phase {σ : Type} (srv : Server σ) (name : String)
    (fuel : Nat) (s : σ) : List Ev × HOut σ :=
  let gs := srv.getState s
  match findParsedPlayer gs.players name with
  | none => ([], .ok s)
  | some my_player =>
    if my_player.territories = [] then ([], .ok s)
    else
      match card_trade_actions_on_parsed gs (some my_player) with
      | .error e => ([], .err e)
      | .ok valid_trades =>
        match tradeLoop srv name fuel s gs (some my_player) valid_trades with
        | (evs, .fuelOut) => (evs, .fuelOut)
        | (evs, .err e) => (evs, .err e)
        | (evs, .ok (s1, gs1, p1opt)) =>
          let armies_before := srv.getReinforcement s1
          if armies_before = 0 then (evs ++ [.advance], .ok (srv.advancePhase s1))
          else
            match reinforce_actions_on_parsed gs1 p1opt (srv.getReinforcement s1) with
            | .error e => (evs, .err e)
            | .ok valid_reinforce =>
              if valid_reinforce = [] then
                (evs ++ [.advance], .ok (srv.advancePhase s1))
              else
                let res := reinforceAgentLoop srv fuel 0 s1
                (evs ++ res.1, res.2)

/-- The `while True:` loop of `_handle_attack_phase` (lines 248-271).
Each iteration first calls `get_valid_attack_actions(game_state,
my_player)`; on an Attack snapshot that call raises `TypeError` at
`player['territories']` before the agent can be invoked.  The agent
invocation is not wrapped in `try`/`except`. -/
def attackLoop {σ : Type} (srv : Server σ) (name : String) :
    Nat → σ → ParsedGameState → ParsedPlayer → List Ev × HOut σ
  | 0, s, gs, p =>
    match attack_actions_on_parsed gs p with
    | .error e => ([], .err e)
    | .ok valid_attacks =>
      if valid_attacks = [] then ([.advance], .ok (srv.advancePhase s))
      else ([], .fuelOut)
  | fuel + 1, s, gs, p =>
    match attack_actions_on_parsed gs p with
    | .error e => ([], .err e)
    | .ok valid_attacks =>
      if valid_attacks = [] then ([.advance], .ok (srv.advancePhase s))
      else
        match srv.agentTurn s with
        | .error e => ([.agent], .err e)
        | .ok (_, s1) =>
          let gs1 := srv.getState s1
          match findParsedPlayer gs1.players name with
          | none => ([.agent], .ok s1)
          | some p1 =>
            let res := attackLoop srv name fuel s1 gs1 p1
            (.agent :: res.1, res.2)

/-- `_handle_attack_phase` (lines 234-271). -/
def handle_attack_phase {σ : Type} (srv : Server σ) (name : String)
    (fuel : Nat) (s : σ) : List Ev × HOut σ :=
  let gs := srv.getState s
  match findParsedPlayer gs.players name with
  | none => ([], .ok s)
  | some my_player => attackLoop srv name fuel s gs my_player

/-- The `while True:` loop of `_handle_fortify_phase` (lines 287-325):
like the attack loop but with the text-based-function-call fallback that
re-prompts the agent once; again no retry counter and no timeout, and on
a Fortify snapshot the initial rule call raises before any agent
invocation. -/
def fortifyLoop {σ : Type} (srv : Server σ) (name : String) :
    Nat → σ → ParsedGameState → ParsedPlayer → List Ev × HOut σ
  | 0, s, gs, p =>
    match fortify_actions_on_parsed gs p with
    | .error e => ([], .err e)
    | .ok valid_fortifies =>
      if valid_fortifies = [] then ([.advance], .ok (srv.advancePhase s))
      else ([], .fuelOut)
  | fuel + 1, s, gs, p =>
    match fortify_actions_on_parsed gs p with
    | .error e => ([], .err e)
    | .ok valid_fortifies =>
      if valid_fortifies = [] then ([.advance], .ok (srv.advancePhase s))
      else
        match srv.agentTurn s with
          | .error e => ([.agent], .err e)
          | .ok (result, s1) =>
            if fortifyTextCall result then
              match srv.agentTurn s1 with
              | .error e => ([.agent, .agent], .err e)
              | .ok (_, s2) =>
                let gs2 := srv.getState s2
                match findParsedPlayer gs2.players name with
                | none => ([.agent, .agent], .ok s2)
                | some p2 =>
                  let res := fortifyLoop srv name fuel s2 gs2 p2
                  (.agent :: .agent :: res.1, res.2)
            else
              let gs1 := srv.getState s1
              match findParsedPlayer gs1.players name with
              | none => ([.agent], .ok s1)
              | some p1 =>
                let res := fortifyLoop srv name fuel s1 gs1 p1
                (.agent :: res.1, res.2)

/-- `_handle_fortify_phase` (lines 273-325). -/
def handle_fortify_phase {σ : Type} (srv : Server σ) (name : String)
    (fuel : Nat) (s : σ) : List Ev × HOut σ :=
  let gs := srv.getState s
  match findParsedPlayer gs.players name with
  | none => ([], .ok s)
  | some my_player => fortifyLoop srv name fuel s gs my_player

/-- `_handle_generic_phase` (lines 385-399): the only handler that wraps
the agent invocation in `asyncio.wait_for(..., timeout=self.turn_timeout)`.
A `TimeoutError` (invocation takes longer than the timeout) is caught and
the phase is force-advanced; any other agent exception propagates, since
only `asyncio.TimeoutError` is handled.  This handler touches no rule
function (its state read is used only for logging), and `start_game`
never dispatches to it. -/
def handle_generic_phase {σ : Type} (srv : Server σ) (turn_timeout : Nat)
    (s : σ) : List Ev × HOut σ :=
  if turn_timeout < srv.agentTime s then ([.advance], .ok (srv.advancePhase s))
  else
    match srv.agentTurn s with
    | .error e => ([.agent], .err e)
    | .ok (_, s1) => ([.agent], .ok s1)

/-- Replace only the invocation duration of the agent, leaving every other
behaviour of the world unchanged. -/
def Server.withAgentTime {σ : Type} (srv : Server σ) (f : σ → Nat) : Server σ :=
  { srv with agentTime := f }

/-! ## C2: legal reinforce actions -/

/-- C2.  For every snapshot and player: if the phase is not Reinforce or
the freshly-read reinforcement pool is 0, `get_valid_reinforce_actions`
returns the empty list; otherwise it returns exactly one action per
territory the player owns, each carrying `max_armies` equal to the current
pool size (the same cap on every action). -/
theorem C2_legal_reinforce_characterization (gs : GameState) (p : PlayerR)
    (client : Option Nat) :
    ((gs.phase ≠ GamePhase.REINFORCE ∨ client.getD gs.reinforcement_armies = 0) →
      get_valid_reinforce_actions gs p client = [])
    ∧ (gs.phase = GamePhase.REINFORCE →
      client.getD gs.reinforcement_armies ≠ 0 →
      get_valid_reinforce_actions gs p client =
        p.territories.map (fun t => ⟨t, client.getD gs.reinforcement_armies⟩)) := by
  constructor
  · intro h
    unfold get_valid_reinforce_actions
    by_cases hp : gs.phase = GamePhase.REINFORCE
    · rw [if_neg (by simp [hp])]
      rcases h with h | h
      · exact absurd hp h
      · cases client <;> simp_all
    · rw [if_pos hp]
  · intro h1 h2
    unfold get_valid_reinforce_actions
    rw [if_neg (by simp [h1])]
    cases client <;> simp_all

/-- Witness for C2 at a concrete snapshot. -/
theorem C2_witness :
    get_valid_reinforce_actions
      ⟨[], [], "P1", GamePhase.REINFORCE, 0⟩
      ⟨1, "P1", ["Alaska", "Ontario"], [("Alaska", 3), ("Ontario", 2)], []⟩
      (some 5) =
      [⟨"Alaska", 5⟩, ⟨"Ontario", 5⟩] :=
  (C2_legal_reinforce_characterization
    ⟨[], [], "P1", GamePhase.REINFORCE, 0⟩
    ⟨1, "P1", ["Alaska", "Ontario"], [("Alaska", 3), ("Ontario", 2)], []⟩
    (some 5)).2 (by decide) (by decide)

/-! ## C5: card-combination validity -/

/-- The four card kinds of the data model. -/
inductive CardKind where
  | Infantry
  | Cavalry
  | Artillery
  | Joker
deriving DecidableEq, Repr, Fintype

/-- The string the service uses for each kind. -/
def kindStr : CardKind → String
  | .Infantry => "Infantry"
  | .Cavalry => "Cavalry"
  | .Artillery => "Artillery"
  | .Joker => "Joker"

/-- Validity of a 3-card kind multiset in the words of the specification:
three-of-a-kind of a non-wild kind, or exactly one of each non-wild kind,
or 1-2 Jokers with the remaining slots filled by non-wild kinds (over
`CardKind` every non-Joker is non-wild, so the remaining slots are
automatically non-wild). -/
def validCardComboSpec (a b c : CardKind) : Prop :=
  (a = b ∧ b = c ∧ a ≠ CardKind.Joker)
  ∨ ([a, b, c].count CardKind.Infantry = 1 ∧ [a, b, c].count CardKind.Cavalry = 1
      ∧ [a, b, c].count CardKind.Artillery = 1)
  ∨ (1 ≤ [a, b, c].count CardKind.Joker ∧ [a, b, c].count CardKind.Joker ≤ 2)

instance (a b c : CardKind) : Decidable (validCardComboSpec a b c) := by
  unfold validCardComboSpec
  infer_instance

/-- C5.  The card-combination validator agrees with the specification's
case analysis on every 3-element list of card kinds (in particular three
Jokers is invalid), and its verdict is invariant under permutation of its
input list. -/
theorem C5_card_combination_correct :
    (∀ a b c : CardKind,
      is_valid_card_combination [kindStr a, kindStr b, kindStr c] = true ↔
        validCardComboSpec a b c)
    ∧ ∀ l1 l2 : List String, l1.Perm l2 →
        is_valid_card_combination l1 = is_valid_card_combination l2 := by
  constructor
  · decide
  · intro l1 l2 h
    simp only [is_valid_card_combination, h.length_eq, h.count_eq]

/-- Witness for C5: a concrete instance of each conjunct. -/
theorem C5_witness :
    (is_valid_card_combination [kindStr CardKind.Infantry, kindStr CardKind.Joker,
        kindStr CardKind.Joker] = true)
    ∧ is_valid_card_combination ["Joker", "Joker", "Joker"] =
        is_valid_card_combination ["Joker", "Joker", "Joker"] :=
  ⟨(C5_card_combination_correct.1 CardKind.Infantry CardKind.Joker CardKind.Joker).mpr
      (by decide),
    C5_card_combination_correct.2 ["Joker", "Joker", "Joker"] ["Joker", "Joker", "Joker"]
      (by decide)⟩

/-! ## C7: the game-over flag is computed client-side -/

/-- A concrete service response: two players, Bob already defeated, and
the service's own `game_over` flag reporting `false`. -/
def rawC7 : RawGameData :=
  { board_territories := [("A", ⟨some "NA", ["B"]⟩), ("B", ⟨some "NA", ["A"]⟩)],
    players := [⟨some 1, "Alice", ["A", "B"], [("A", 3), ("B", 2)], 2, []⟩,
                ⟨some 2, "Bob", [], [], 0, []⟩],
    current_player := some "Alice",
    turn_phase := some "Attack",
    reinforcement_armies := 0,
    current_turn := 3,
    defeated_players := ["Bob"],
    winner := none,
    game_over := some false }

/-- Counterexample to C7: on `rawC7` the service reports `game_over =
false`, yet the snapshot field the game loop's exit test reads is `true` —
the parser computed it client-side from `defeated_players` instead of
using the service's flag. -/
theorem C7_counterexample :
    (parse_game_state rawC7).game_over = true ∧ rawC7.game_over = some false := by
  constructor
  · rfl
  · rfl

/-- C7 (amended).  The snapshot's `game_over` used by the game loop's exit
test is computed client-side as `len(defeated_players) >= len(players) - 1`
over the parsed player dictionary, and the parse result is entirely
independent of the service-reported `game_over` flag. -/
theorem C7_game_over_computed_locally (raw : RawGameData) (b : Option Bool) :
    ((parse_game_state raw).game_over =
      decide ((raw.defeated_players.length : Int) ≥
        ((parse_game_state raw).players.length : Int) - 1))
    ∧ parse_game_state { raw with game_over := b } = parse_game_state raw := by
  constructor
  · rfl
  · cases raw
    rfl

/-! ## C3: legal attack actions -/

/-- Membership characterization of the attack rule in Attack phase. -/
theorem mem_attack_iff (gs : GameState) (p : PlayerR)
    (hph : gs.phase = GamePhase.ATTACK) (a : AttackAction) :
    a ∈ get_valid_attack_actions gs p ↔
      a.from_ ∈ p.territories
      ∧ (∃ t, findTerritory gs.territories a.from_ = some t
          ∧ a.to_ ∈ t.adjacent_territories)
      ∧ 1 < lookupArmies p.armies a.from_
      ∧ (∃ o, findOwner gs.players a.to_ = some o ∧ o ≠ p.name)
      ∧ a.max_dice = min (lookupArmies p.armies a.from_ - 1) 3 := by
  obtain ⟨af, atn, am⟩ := a
  dsimp only
  unfold get_valid_attack_actions
  rw [if_neg (by simp [hph]), List.mem_flatMap]
  constructor
  · rintro ⟨x, hx, hmem⟩
    dsimp only at hmem
    rcases ht : findTerritory gs.territories x with _ | t
    · rw [ht] at hmem
      simp at hmem
    · rw [ht] at hmem
      dsimp only at hmem
      by_cases harm : lookupArmies p.armies x ≤ 1
      · rw [if_pos harm] at hmem
        simp at hmem
      · rw [if_neg harm] at hmem
        by_cases hmd : min (lookupArmies p.armies x - 1) 3 = 0
        · rw [if_pos hmd] at hmem
          simp at hmem
        · rw [if_neg hmd] at hmem
          rw [List.mem_flatMap] at hmem
          rcases hmem with ⟨y, hy, hmem⟩
          rcases ho : findOwner gs.players y with _ | o
          · rw [ho] at hmem
            simp at hmem
          · rw [ho] at hmem
            dsimp only at hmem
            by_cases hoe : o = p.name
            · rw [if_pos hoe] at hmem
              simp at hmem
            · rw [if_neg hoe] at hmem
              simp only [List.mem_singleton, AttackAction.mk.injEq] at hmem
              obtain ⟨rfl, rfl, rfl⟩ := hmem
              exact ⟨hx, ⟨t, ht, hy⟩, by omega, ⟨o, ho, hoe⟩, rfl⟩
  · rintro ⟨hmem, ⟨t, ht, hadj⟩, harm, ⟨o, ho, hne⟩, hdice⟩
    have hmd : min (lookupArmies p.armies af - 1) 3 ≠ 0 := by
      have h3 : (1 : Nat) ≤ min (lookupArmies p.armies af - 1) 3 :=
        le_min_iff.mpr ⟨by omega, by norm_num⟩
      omega
    refine ⟨af, hmem, ?_⟩
    dsimp only
    rw [ht]
    dsimp only
    rw [if_neg (by omega), if_neg hmd, List.mem_flatMap]
    refine ⟨atn, hadj, ?_⟩
    dsimp only
    rw [ho]
    dsimp only
    rw [if_neg hne]
    simp [hdice]

/-- C3.  In Attack phase the rule engine emits one action exactly for each
pair of an owned source territory with more than one army and an adjacent
territory owned by a different player (an ownerless adjacent territory
never yields an attack), with `max_dice = min(armyCount - 1, 3)`; in every
other phase it returns the empty list. -/
theorem C3_legal_attack_characterization (gs : GameState) (p : PlayerR) :
    (gs.phase ≠ GamePhase.ATTACK → get_valid_attack_actions gs p = [])
    ∧ (gs.phase = GamePhase.ATTACK → ∀ a : AttackAction,
        a ∈ get_valid_attack_actions gs p ↔
          a.from_ ∈ p.territories
          ∧ (∃ t, findTerritory gs.territories a.from_ = some t
              ∧ a.to_ ∈ t.adjacent_territories)
          ∧ 1 < lookupArmies p.armies a.from_
          ∧ (∃ o, findOwner gs.players a.to_ = some o ∧ o ≠ p.name)
          ∧ a.max_dice = min (lookupArmies p.armies a.from_ - 1) 3) := by
  constructor
  · intro h
    unfold get_valid_attack_actions
    rw [if_pos h]
  · intro hph a
    exact mem_attack_iff gs p hph a

/-! ## Correctness of the breadth-first search
(`_find_connected_territories`) -/

/-- Reachability from `start` along adjacency edges whose targets the
player owns: the relation the fortify rule's breadth-first search is meant
to compute. -/
inductive Reach (ts : List (String × Territory)) (owned : List String)
    (start : String) : String → Prop where
  | refl : Reach ts owned start start
  | step {u v : String} {t : Territory} :
      Reach ts owned start u → findTerritory ts u = some t →
      v ∈ t.adjacent_territories → v ∈ owned → Reach ts owned start v

/-- `bfsLoop` on an empty queue returns `visited`. -/
theorem bfsLoop_nil (ts : List (String × Territory)) (owned : List String)
    (fuel : Nat) (visited : List String) :
    bfsLoop ts owned fuel visited [] = visited := by
  cases fuel <;> rfl

/-- `bfsLoop` with no fuel returns `visited`. -/
theorem bfsLoop_zero (ts : List (String × Territory)) (owned : List String)
    (visited queue : List String) :
    bfsLoop ts owned 0 visited queue = visited := by
  cases queue <;> rfl

/-- One unfolding of the loop body. -/
theorem bfsLoop_cons (ts : List (String × Territory)) (owned : List String)
    (fuel : Nat) (visited : List String) (current : String) (queue : List String) :
    bfsLoop ts owned (fuel + 1) visited (current :: queue) =
      if current ∈ visited then bfsLoop ts owned fuel visited queue
      else
        match findTerritory ts current with
        | none => bfsLoop ts owned fuel (current :: visited) queue
        | some t =>
          bfsLoop ts owned fuel (current :: visited)
            (queue ++ t.adjacent_territories.filter
              (fun a => decide (¬ a ∈ current :: visited ∧ a ∈ owned))) := rfl

/-- Soundness: everything the search visits is reachable, provided the
seed sets are. -/
theorem bfsLoop_sound (ts : List (String × Territory)) (owned : List String)
    (start : String) :
    ∀ fuel (visited queue : List String),
      (∀ x ∈ visited, Reach ts owned start x) →
      (∀ x ∈ queue, Reach ts owned start x) →
      ∀ x ∈ bfsLoop ts owned fuel visited queue, Reach ts owned start x := by
  intro fuel
  induction fuel with
  | zero =>
    intro visited queue hv _ x hx
    rw [bfsLoop_zero] at hx
    exact hv x hx
  | succ fuel ih =>
    intro visited queue hv hq x hx
    cases queue with
    | nil =>
      rw [bfsLoop_nil] at hx
      exact hv x hx
    | cons current rest =>
      rw [bfsLoop_cons] at hx
      have hcr : Reach ts owned start current := hq current (List.mem_cons_self _ _)
      have hv1 : ∀ y ∈ current :: visited, Reach ts owned start y := by
        intro y hy
        rcases List.mem_cons.mp hy with rfl | hy
        · exact hcr
        · exact hv y hy
      have hrest : ∀ y ∈ rest, Reach ts owned start y :=
        fun y hy => hq y (List.mem_cons_of_mem _ hy)
      by_cases hc : current ∈ visited
      · rw [if_pos hc] at hx
        exact ih visited rest hv hrest x hx
      · rw [if_neg hc] at hx
        rcases ht : findTerritory ts current with _ | t
        · rw [ht] at hx
          exact ih _ rest hv1 hrest x hx
        · rw [ht] at hx
          refine ih _ _ hv1 ?_ x hx
          intro y hy
          rcases List.mem_append.mp hy with hy | hy
          · exact hrest y hy
          · rcases List.mem_filter.mp hy with ⟨hadj, hcond⟩
            exact Reach.step hcr ht hadj (of_decide_eq_true hcond).2

/-- Total adjacency length of the entries whose key is not yet visited:
the termination potential of the search (together with the queue length). -/
def unvisitedAdj : List (String × Territory) → List String → Nat
  | [], _ => 0
  | kt :: rest, visited =>
    (if kt.1 ∈ visited then 0 else kt.2.adjacent_territories.length)
      + unvisitedAdj rest visited

/-- Marking one more node visited cannot increase the potential. -/
theorem unvisitedAdj_cons_le (ts : List (String × Territory)) (c : String)
    (visited : List String) :
    unvisitedAdj ts (c :: visited) ≤ unvisitedAdj ts visited := by
  induction ts with
  | nil => simp [unvisitedAdj]
  | cons kt rest ih =>
    simp only [unvisitedAdj]
    by_cases h : kt.1 ∈ visited
    · rw [if_pos h, if_pos (List.mem_cons_of_mem _ h)]
      omega
    · rw [if_neg h]
      by_cases h2 : kt.1 ∈ c :: visited
      · rw [if_pos h2]
        omega
      · rw [if_neg h2]
        omega

/-- Visiting a node that is present in the territory map frees at least
its adjacency length from the potential. -/
theorem unvisitedAdj_found (ts : List (String × Territory)) (current : String)
    (t : Territory) (visited : List String) (hc : ¬ current ∈ visited)
    (ht : findTerritory ts current = some t) :
    unvisitedAdj ts (current :: visited) + t.adjacent_territories.length ≤
      unvisitedAdj ts visited := by
  induction ts with
  | nil => simp [findTerritory] at ht
  | cons kt rest ih =>
    simp only [unvisitedAdj]
    by_cases hk : kt.1 = current
    · rw [findTerritory, if_pos hk] at ht
      injection ht with ht
      subst ht
      rw [if_pos (by rw [hk]; exact List.mem_cons_self _ _), if_neg (by rw [hk]; exact hc)]
      have := unvisitedAdj_cons_le rest current visited
      omega
    · rw [findTerritory, if_neg hk] at ht
      have hrec := ih ht
      by_cases hv : kt.1 ∈ visited
      · rw [if_pos hv, if_pos (List.mem_cons_of_mem _ hv)]
        omega
      · rw [if_neg hv, if_neg (by
          intro hmem
          rcases List.mem_cons.mp hmem with h | h
          · exact hk h
          · exact hv h)]
        omega

/-- With `visited = []` the potential is the total adjacency length. -/
theorem unvisitedAdj_nil_eq_totalAdj (ts : List (String × Territory)) :
    unvisitedAdj ts [] = totalAdj ts := by
  induction ts with
  | nil => simp [unvisitedAdj, totalAdj]
  | cons kt rest ih => simp [unvisitedAdj, totalAdj] at ih ⊢; omega

/-- The visited-set invariant of the search: every adjacency edge out of a
visited node into an owned territory lands in `visited` or is pending in
`queue`. -/
def bfsInv (ts : List (String × Territory)) (owned : List String)
    (visited queue : List String) : Prop :=
  ∀ u ∈ visited, ∀ t, findTerritory ts u = some t →
    ∀ v ∈ t.adjacent_territories, v ∈ owned → v ∈ visited ∨ v ∈ queue

/-- Completeness core: with fuel at least the potential, the search result
contains `visited` and `queue` and is closed under owned adjacency
edges. -/
theorem bfsLoop_closed (ts : List (String × Territory)) (owned : List String) :
    ∀ fuel (visited queue : List String),
      queue.length + unvisitedAdj ts visited ≤ fuel →
      bfsInv ts owned visited queue →
      (∀ x ∈ visited, x ∈ bfsLoop ts owned fuel visited queue)
      ∧ (∀ x ∈ queue, x ∈ bfsLoop ts owned fuel visited queue)
      ∧ ∀ u ∈ bfsLoop ts owned fuel visited queue, ∀ t,
          findTerritory ts u = some t →
          ∀ v ∈ t.adjacent_territories, v ∈ owned →
            v ∈ bfsLoop ts owned fuel visited queue := by
  intro fuel
  induction fuel with
  | zero =>
    intro visited queue hfuel hinv
    have hq : queue = [] := List.eq_nil_of_length_eq_zero (by omega)
    subst hq
    rw [bfsLoop_nil]
    refine ⟨fun x hx => hx, fun x hx => absurd hx (List.not_mem_nil x), ?_⟩
    intro u hu t ht v hv hvo
    rcases hinv u hu t ht v hv hvo with h | h
    · exact h
    · cases h
  | succ fuel ih =>
    intro visited queue hfuel hinv
    cases queue with
    | nil =>
      rw [bfsLoop_nil]
      refine ⟨fun x hx => hx, fun x hx => absurd hx (List.not_mem_nil x), ?_⟩
      intro u hu t ht v hv hvo
      rcases hinv u hu t ht v hv hvo with h | h
      · exact h
      · cases h
    | cons current rest =>
      rw [bfsLoop_cons]
      by_cases hc : current ∈ visited
      · rw [if_pos hc]
        have hinv1 : bfsInv ts owned visited rest := by
          intro u hu t ht v hv hvo
          rcases hinv u hu t ht v hv hvo with h | h
          · exact Or.inl h
          · rcases List.mem_cons.mp h with rfl | h
            · exact Or.inl hc
            · exact Or.inr h
        have hfuel1 : rest.length + unvisitedAdj ts visited ≤ fuel := by
          simp only [List.length_cons] at hfuel
          omega
        obtain ⟨ih1, ih2, ih3⟩ := ih visited rest hfuel1 hinv1
        refine ⟨ih1, ?_, ih3⟩
        intro x hx
        rcases List.mem_cons.mp hx with rfl | hx
        · exact ih1 x hc
        · exact ih2 x hx
      · rw [if_neg hc]
        rcases ht : findTerritory ts current with _ | t
        · have hinv1 : bfsInv ts owned (current :: visited) rest := by
            intro u hu tu htu v hv hvo
            rcases List.mem_cons.mp hu with rfl | hu
            · rw [ht] at htu
              cases htu
            · rcases hinv u hu tu htu v hv hvo with h | h
              · exact Or.inl (List.mem_cons_of_mem _ h)
              · rcases List.mem_cons.mp h with rfl | h
                · exact Or.inl (List.mem_cons_self _ _)
                · exact Or.inr h
          have hfuel1 : rest.length + unvisitedAdj ts (current :: visited) ≤ fuel := by
            have := unvisitedAdj_cons_le ts current visited
            simp only [List.length_cons] at hfuel
            omega
          obtain ⟨ih1, ih2, ih3⟩ := ih (current :: visited) rest hfuel1 hinv1
          refine ⟨fun x hx => ih1 x (List.mem_cons_of_mem _ hx), ?_, ih3⟩
          intro x hx
          rcases List.mem_cons.mp hx with rfl | hx
          · exact ih1 x (List.mem_cons_self _ _)
          · exact ih2 x hx
        · have hinv1 : bfsInv ts owned (current :: visited)
              (rest ++ t.adjacent_territories.filter
                (fun a => decide (¬ a ∈ current :: visited ∧ a ∈ owned))) := by
            intro u hu tu htu v hv hvo
            rcases List.mem_cons.mp hu with heq | hu
            · rw [heq, ht] at htu
              injection htu with htu
              rw [← htu] at hv
              by_cases hvis : v ∈ current :: visited
              · exact Or.inl hvis
              · refine Or.inr (List.mem_append.mpr (Or.inr ?_))
                exact List.mem_filter.mpr ⟨hv, decide_eq_true ⟨hvis, hvo⟩⟩
            · rcases hinv u hu tu htu v hv hvo with h | h
              · exact Or.inl (List.mem_cons_of_mem _ h)
              · rcases List.mem_cons.mp h with rfl | h
                · exact Or.inl (List.mem_cons_self _ _)
                · exact Or.inr (List.mem_append.mpr (Or.inl h))
          have hfuel1 : (rest ++ t.adjacent_territories.filter
              (fun a => decide (¬ a ∈ current :: visited ∧ a ∈ owned))).length
                + unvisitedAdj ts (current :: visited) ≤ fuel := by
            have h1 := unvisitedAdj_found ts current t visited hc ht
            have h2 : (t.adjacent_territories.filter
                (fun a => decide (¬ a ∈ current :: visited ∧ a ∈ owned))).length ≤
                t.adjacent_territories.length := List.length_filter_le _ _
            rw [List.length_append]
            simp only [List.length_cons] at hfuel
            omega
          obtain ⟨ih1, ih2, ih3⟩ := ih _ _ hfuel1 hinv1
          refine ⟨fun x hx => ih1 x (List.mem_cons_of_mem _ hx), ?_, ih3⟩
          intro x hx
          rcases List.mem_cons.mp hx with rfl | hx
          · exact ih1 x (List.mem_cons_self _ _)
          · exact ih2 x (List.mem_append.mpr (Or.inl hx))

/-- The breadth-first search of the fortify rule computes exactly the
reachability relation `Reach`. -/
theorem mem_find_connected_iff (gs : GameState) (start : String)
    (owned : List String) (x : String) :
    x ∈ find_connected_territories gs start owned ↔
      Reach gs.territories owned start x := by
  constructor
  · intro hx
    refine bfsLoop_sound gs.territories owned start _ [] [start]
      (by intro y hy; cases hy) ?_ x hx
    intro y hy
    rcases List.mem_cons.mp hy with rfl | hy
    · exact Reach.refl
    · cases hy
  · intro hr
    have hcl := bfsLoop_closed gs.territories owned
      (1 + totalAdj gs.territories) [] [start]
      (by simp [unvisitedAdj_nil_eq_totalAdj])
      (by intro u hu; cases hu)
    induction hr with
    | refl => exact hcl.2.1 start (List.mem_cons_self _ _)
    | step hru ht hadj hvo ih => exact hcl.2.2 _ ih _ ht _ hadj hvo

/-- Transitivity of reachability. -/
theorem reach_trans {ts : List (String × Territory)} {owned : List String}
    {a b c : String} (h1 : Reach ts owned a b) (h2 : Reach ts owned b c) :
    Reach ts owned a c := by
  induction h2 with
  | refl => exact h1
  | step _ ht hadj hvo ih => exact Reach.step ih ht hadj hvo

/-- A reachable node is the start or an owned territory. -/
theorem reach_start_or_owned {ts : List (String × Territory)}
    {owned : List String} {s x : String} (h : Reach ts owned s x) :
    x = s ∨ x ∈ owned := by
  induction h with
  | refl => exact Or.inl rfl
  | step _ _ _ hvo _ => exact Or.inr hvo

/-- Symmetry of the territory adjacency relation, stated over the map. -/
def AdjSym (ts : List (String × Territory)) : Prop :=
  ∀ u t, findTerritory ts u = some t → ∀ v ∈ t.adjacent_territories,
    ∀ t2, findTerritory ts v = some t2 → u ∈ t2.adjacent_territories

/-- Under symmetric adjacency, when every owned territory is present in the
map and the start is owned, reachability is symmetric. -/
theorem reach_symm {ts : List (String × Territory)} {owned : List String}
    {s x : String} (hsym : AdjSym ts)
    (howned : ∀ y ∈ owned, ∃ t, findTerritory ts y = some t)
    (hs : s ∈ owned) (h : Reach ts owned s x) : Reach ts owned x s := by
  induction h with
  | refl => exact Reach.refl
  | step hru ht hadj hvo ih =>
    rcases howned _ hvo with ⟨t2, ht2⟩
    have hu_owned := reach_start_or_owned hru
    have hvu := Reach.step Reach.refl ht2 (hsym _ _ ht _ hadj _ ht2)
      (by rcases hu_owned with rfl | h2; exact hs; exact h2)
    exact reach_trans hvu ih

/-- A successful territory lookup comes from an entry of the map. -/
theorem find_mem {ts : List (String × Territory)} {u : String} {t : Territory}
    (h : findTerritory ts u = some t) : (u, t) ∈ ts := by
  induction ts with
  | nil => cases h
  | cons kt rest ih =>
    rw [findTerritory] at h
    by_cases hk : kt.1 = u
    · rw [if_pos hk] at h
      injection h with h
      cases kt
      cases hk
      cases h
      exact List.mem_cons_self _ _
    · rw [if_neg hk] at h
      exact List.mem_cons_of_mem _ (ih h)

/-! ## C4: legal fortify actions -/

/-- Membership characterization of the fortify rule in Fortify phase. -/
theorem mem_fortify_iff (gs : GameState) (p : PlayerR)
    (hph : gs.phase = GamePhase.FORTIFY) (a : FortifyAction) :
    a ∈ get_valid_fortify_actions gs p ↔
      a.from_ ∈ p.territories
      ∧ (findTerritory gs.territories a.from_).isSome
      ∧ 1 < lookupArmies p.armies a.from_
      ∧ Reach gs.territories p.territories a.from_ a.to_
      ∧ a.to_ ≠ a.from_
      ∧ a.max_armies = lookupArmies p.armies a.from_ - 1 := by
  obtain ⟨af, atn, am⟩ := a
  dsimp only
  unfold get_valid_fortify_actions
  rw [if_neg (by simp [hph]), List.mem_flatMap]
  constructor
  · rintro ⟨x, hx, hmem⟩
    dsimp only at hmem
    rcases ht : findTerritory gs.territories x with _ | t
    · rw [ht] at hmem
      simp at hmem
    · rw [ht] at hmem
      dsimp only at hmem
      by_cases harm : lookupArmies p.armies x ≤ 1
      · rw [if_pos harm] at hmem
        simp at hmem
      · rw [if_neg harm] at hmem
        by_cases hz : lookupArmies p.armies x - 1 = 0
        · rw [if_pos hz] at hmem
          simp at hmem
        · rw [if_neg hz] at hmem
          rw [List.mem_map] at hmem
          rcases hmem with ⟨y, hy, heq⟩
          rcases List.mem_filter.mp hy with ⟨hconn, hney⟩
          simp only [FortifyAction.mk.injEq] at heq
          obtain ⟨rfl, rfl, rfl⟩ := heq
          exact ⟨hx, by rw [ht]; rfl, by omega,
            (mem_find_connected_iff gs x p.territories y).mp hconn,
            of_decide_eq_true hney, rfl⟩
  · rintro ⟨hmem, hsome, harm, hreach, hne, hmax⟩
    refine ⟨af, hmem, ?_⟩
    dsimp only
    rcases ht2 : findTerritory gs.territories af with _ | t
    · rw [ht2] at hsome
      simp at hsome
    · dsimp only
      rw [if_neg (by omega), if_neg (by omega), List.mem_map]
      refine ⟨atn, List.mem_filter.mpr
        ⟨(mem_find_connected_iff gs af p.territories atn).mpr hreach,
          decide_eq_true hne⟩, ?_⟩
      simp [hmax]

/-- C4.  In Fortify phase the rule engine emits, for each owned source
with more than one army, one action per other member of the source's
connected component, capped at the source's army count minus one; the
component computed by the breadth-first search is exactly reachability
over adjacency edges into player-owned territories; in every other phase
the result is empty. -/
theorem C4_legal_fortify_characterization (gs : GameState) (p : PlayerR) :
    (gs.phase ≠ GamePhase.FORTIFY → get_valid_fortify_actions gs p = [])
    ∧ (∀ start x, x ∈ find_connected_territories gs start p.territories ↔
        Reach gs.territories p.territories start x)
    ∧ (gs.phase = GamePhase.FORTIFY → ∀ a : FortifyAction,
        a ∈ get_valid_fortify_actions gs p ↔
          a.from_ ∈ p.territories
          ∧ (findTerritory gs.territories a.from_).isSome
          ∧ 1 < lookupArmies p.armies a.from_
          ∧ Reach gs.territories p.territories a.from_ a.to_
          ∧ a.to_ ≠ a.from_
          ∧ a.max_armies = lookupArmies p.armies a.from_ - 1) := by
  refine ⟨?_, fun start x => mem_find_connected_iff gs start p.territories x,
    fun hph a => mem_fortify_iff gs p hph a⟩
  intro h
  unfold get_valid_fortify_actions
  rw [if_pos h]

/-! ### Concrete board fixtures for witnesses and counterexamples -/

/-- Territory A: 5 armies, adjacent to B and E. -/
def cbA : Territory := ⟨"A", some "P1", 5, "X", ["B", "E"]⟩

/-- Territory B: 1 army, adjacent to A and C. -/
def cbB : Territory := ⟨"B", some "P1", 1, "X", ["A", "C"]⟩

/-- Territory C: 2 armies, adjacent to B. -/
def cbC : Territory := ⟨"C", some "P1", 2, "X", ["B"]⟩

/-- Territory D: isolated, 3 armies. -/
def cbD : Territory := ⟨"D", some "P1", 3, "X", []⟩

/-- Territory E: enemy-owned, adjacent to A. -/
def cbE : Territory := ⟨"E", some "P2", 1, "X", ["A"]⟩

/-- Player 1 owns A-D with the army counts above. -/
def cbP1 : PlayerR :=
  ⟨1, "P1", ["A", "B", "C", "D"], [("A", 5), ("B", 1), ("C", 2), ("D", 3)], []⟩

/-- Player 2 owns E. -/
def cbP2 : PlayerR := ⟨2, "P2", ["E"], [("E", 1)], []⟩

/-- The concrete board map. -/
def cbBoard : List (String × Territory) :=
  [("A", cbA), ("B", cbB), ("C", cbC), ("D", cbD), ("E", cbE)]

/-- The concrete snapshot in Fortify phase. -/
def cbFortify : GameState := ⟨cbBoard, [cbP1, cbP2], "P1", GamePhase.FORTIFY, 0⟩

/-- The concrete snapshot in Attack phase. -/
def cbAttack : GameState := ⟨cbBoard, [cbP1, cbP2], "P1", GamePhase.ATTACK, 0⟩

/-- The concrete board's adjacency lists are symmetric. -/
theorem cbBoard_adjSym : AdjSym cbBoard := by
  intro u t hut v hv t2 hvt
  have h1 := find_mem hut
  have h2 := find_mem hvt
  fin_cases h1 <;> fin_cases h2 <;> revert hv <;> decide

/-- Every territory of player 1 is present in the concrete map. -/
theorem cbP1_present : ∀ y ∈ cbP1.territories, ∃ t, findTerritory cbBoard y = some t := by
  intro y hy
  fin_cases hy
  · exact ⟨cbA, rfl⟩
  · exact ⟨cbB, rfl⟩
  · exact ⟨cbC, rfl⟩
  · exact ⟨cbD, rfl⟩

/-- Witness for C3 at the concrete Attack snapshot. -/
theorem C3_witness :
    (⟨"A", "E", 3⟩ : AttackAction) ∈ get_valid_attack_actions cbAttack cbP1 :=
  ((C3_legal_attack_characterization cbAttack cbP1).2 rfl ⟨"A", "E", 3⟩).mpr
    ⟨by decide, ⟨cbA, rfl, by decide⟩, by decide, ⟨"P2", rfl, by decide⟩, by decide⟩

/-- Witness for C4 at the concrete Fortify snapshot: A can fortify C
through B, with cap 4. -/
theorem C4_witness :
    (⟨"A", "C", 4⟩ : FortifyAction) ∈ get_valid_fortify_actions cbFortify cbP1 :=
  ((C4_legal_fortify_characterization cbFortify cbP1).2.2 rfl ⟨"A", "C", 4⟩).mpr
    ⟨by decide, by decide, by decide,
      (mem_find_connected_iff cbFortify "A" cbP1.territories "C").mp (by decide),
      by decide, by decide⟩

/-! ## C6: fortify symmetry -/

/-- Counterexample to C6 as stated: on the concrete Fortify snapshot,
fortify A→B is legal (cap 4), but fortify B→A with cap
`armies(B) - 1 = 0` is not legal — B holds a single army and is skipped
as a source, so fortify legality is not symmetric. -/
theorem C6_counterexample :
    ((⟨"A", "B", 4⟩ : FortifyAction) ∈ get_valid_fortify_actions cbFortify cbP1)
    ∧ ¬ ((⟨"B", "A", lookupArmies cbP1.armies "B" - 1⟩ : FortifyAction) ∈
        get_valid_fortify_actions cbFortify cbP1) := by
  decide

/-- C6 (amended).  On snapshots whose adjacency lists are symmetric and
whose owned territories are all present in the territory map, fortify
legality is symmetric between sources that each hold more than one army:
if A→C is legal and C's army count exceeds 1, then C→A is legal with cap
`armies(C) - 1`. -/
theorem C6_fortify_symmetry_amended (gs : GameState) (p : PlayerR)
    (hsym : AdjSym gs.territories)
    (howned : ∀ y ∈ p.territories, ∃ t, findTerritory gs.territories y = some t)
    (A C : String) (m : Nat)
    (h : (⟨A, C, m⟩ : FortifyAction) ∈ get_valid_fortify_actions gs p)
    (hC : 1 < lookupArmies p.armies C) :
    (⟨C, A, lookupArmies p.armies C - 1⟩ : FortifyAction) ∈
      get_valid_fortify_actions gs p := by
  have hph : gs.phase = GamePhase.FORTIFY := by
    by_contra hph
    unfold get_valid_fortify_actions at h
    rw [if_pos hph] at h
    cases h
  obtain ⟨hA, _, hAarm, hreach, hne, _⟩ := (mem_fortify_iff gs p hph ⟨A, C, m⟩).mp h
  dsimp only at hA hAarm hreach hne
  have hCowned : C ∈ p.territories := by
    rcases reach_start_or_owned hreach with h2 | h2
    · exact absurd h2 hne
    · exact h2
  refine (mem_fortify_iff gs p hph ⟨C, A, lookupArmies p.armies C - 1⟩).mpr ?_
  refine ⟨hCowned, ?_, hC, ?_, fun heq => hne heq.symm, rfl⟩
  · rcases howned C hCowned with ⟨t, ht⟩
    dsimp only
    rw [ht]
    rfl
  · exact reach_symm hsym howned hA hreach

/-- Witness for the amended C6: A→C is legal with cap 4, C holds 2 armies,
so C→A is legal with cap 1. -/
theorem C6_witness :
    (⟨"C", "A", lookupArmies cbP1.armies "C" - 1⟩ : FortifyAction) ∈
      get_valid_fortify_actions cbFortify cbP1 :=
  C6_fortify_symmetry_amended cbFortify cbP1 cbBoard_adjSym cbP1_present
    "A" "C" 4 (by decide) (by decide)


/-! ### Concrete worlds for the orchestrator claims -/

/-- A world whose snapshot, reinforcement pool, agent outcome and agent
invocation duration never change: remote calls succeed without effect. -/
def staticServer (gs : ParsedGameState) (pool : Nat)
    (agentResult : Except String (String × Unit)) (time : Nat) : Server Unit :=
  { getState := fun _ => gs, getReinforcement := fun _ => pool,
    tradeCards := fun s _ _ => Except.ok s, advancePhase := fun s => s,
    agentTurn := fun _ => agentResult, agentTime := fun _ => time }

/-- P1 as the parser delivers it: dataclass shape, scalar `armies`. -/
def pdP1 : ParsedPlayer := ⟨1, "P1", ["A", "B", "C", "D"], 0, [], 11⟩

/-- P2 as the parser delivers it. -/
def pdP2 : ParsedPlayer := ⟨2, "P2", ["E"], 0, [], 1⟩

/-- Attack-phase parsed snapshot over the concrete board. -/
def pgAttack : ParsedGameState :=
  ⟨cbBoard, [("P1", pdP1), ("P2", pdP2)], "P1", GamePhase.ATTACK, 3, false, none⟩

/-- The same snapshot in the Fortify phase. -/
def pgFortify : ParsedGameState := { pgAttack with phase := GamePhase.FORTIFY }

/-- Attack-phase world whose agent raises "boom". -/
def stError : Server Unit := staticServer pgAttack 5 (Except.error "boom") 0

/-- Fortify-phase world whose agent invocation takes 1000 time units. -/
def stSlow : Server Unit := staticServer pgFortify 5 (Except.ok ("", ())) 1000

/-- A Reinforce-phase parsed player holding five tradeable cards. -/
def pdTrade : ParsedPlayer :=
  ⟨1, "P1", ["A"], 0, ["Infantry", "Infantry", "Infantry", "Cavalry", "Artillery"], 1⟩

/-- Reinforce-phase snapshot around `pdTrade`. -/
def pgTrade : ParsedGameState :=
  ⟨cbBoard, [("P1", pdTrade)], "P1", GamePhase.REINFORCE, 3, false, none⟩

/-- World serving `pgTrade`, with a pool of 5 and a no-op agent. -/
def stTrade : Server Unit := staticServer pgTrade 5 (Except.ok ("", ())) 0

/-- The same five-card hand in the dictionary shape the rule engine
expects, to exhibit that the intended trade set is non-empty. -/
def pDictTrade : PlayerR :=
  ⟨1, "P1", ["A"], [("A", 5)], ["Infantry", "Infantry", "Infantry", "Cavalry", "Artillery"]⟩

/-- A dictionary-shaped Reinforce snapshot around `pDictTrade`. -/
def gsDictTrade : GameState := ⟨cbBoard, [pDictTrade], "P1", GamePhase.REINFORCE, 5⟩

/-! ### The handlers crash at their first rule-engine call

Each phase handler passes the parsed `Player` dataclass to a rule
function that subscripts it like a dictionary.  In the handler's own
phase the guard falls through and the subscript raises `TypeError`
(`game_orchestrator.py` lines 134, 250 and 289), so the handler aborts
before any trade, any agent invocation and any phase advance. -/

theorem handle_reinforce_crash {σ : Type} (srv : Server σ) (name : String)
    (fuel : Nat) (s : σ) (p : ParsedPlayer)
    (hfind : findParsedPlayer (srv.getState s).players name = some p)
    (hphase : (srv.getState s).phase = GamePhase.REINFORCE)
    (hterr : p.territories ≠ []) :
    handle_reinforce_phase srv name fuel s = ([], HOut.err playerSubscriptError) := by
  unfold handle_reinforce_phase
  dsimp only
  rw [hfind]
  dsimp only
  rw [if_neg hterr]
  have hc : card_trade_actions_on_parsed (srv.getState s) (some p) =
      Except.error playerSubscriptError := by
    unfold card_trade_actions_on_parsed
    rw [if_neg (fun hne => hne hphase)]
  rw [hc]

theorem handle_attack_crash {σ : Type} (srv : Server σ) (name : String)
    (fuel : Nat) (s : σ) (p : ParsedPlayer)
    (hfind : findParsedPlayer (srv.getState s).players name = some p)
    (hphase : (srv.getState s).phase = GamePhase.ATTACK) :
    handle_attack_phase srv name fuel s = ([], HOut.err playerSubscriptError) := by
  have hc : attack_actions_on_parsed (srv.getState s) p =
      Except.error playerSubscriptError := by
    unfold attack_actions_on_parsed
    rw [if_neg (fun hne => hne hphase)]
  unfold handle_attack_phase
  dsimp only
  rw [hfind]
  dsimp only
  cases fuel with
  | zero => unfold attackLoop; rw [hc]
  | succ n => unfold attackLoop; rw [hc]

theorem handle_fortify_crash {σ : Type} (srv : Server σ) (name : String)
    (fuel : Nat) (s : σ) (p : ParsedPlayer)
    (hfind : findParsedPlayer (srv.getState s).players name = some p)
    (hphase : (srv.getState s).phase = GamePhase.FORTIFY) :
    handle_fortify_phase srv name fuel s = ([], HOut.err playerSubscriptError) := by
  have hc : fortify_actions_on_parsed (srv.getState s) p =
      Except.error playerSubscriptError := by
    unfold fortify_actions_on_parsed
    rw [if_neg (fun hne => hne hphase)]
  unfold handle_fortify_phase
  dsimp only
  rw [hfind]
  dsimp only
  cases fuel with
  | zero => unfold fortifyLoop; rw [hc]
  | succ n => unfold fortifyLoop; rw [hc]

/-! ## C1: stall guard and retry budget -/

/-- C9 (corrected): nothing catches a decision-agent exception.  In the
attack handler the agent is never even reached — the rule-engine call
raises `TypeError` first — and in the generic handler, the one place with
any exception handling (for `asyncio.TimeoutError` only), a non-timeout
agent exception propagates out after a single invocation, with no retry
counting and no phase advance. -/
theorem C9_agent_exception_propagates {σ : Type} (srv : Server σ)
    (name : String) (s : σ) (p : ParsedPlayer) (e : String) (t : Nat)
    (hfind : findParsedPlayer (srv.getState s).players name = some p)
    (hphase : (srv.getState s).phase = GamePhase.ATTACK) :
    (∀ fuel, handle_attack_phase srv name fuel s =
      ([], HOut.err playerSubscriptError)) ∧
    (¬ t < srv.agentTime s → srv.agentTurn s = Except.error e →
      handle_generic_phase srv t s = ([Ev.agent], HOut.err e)) := by
  constructor
  · intro fuel
    exact handle_attack_crash srv name fuel s p hfind hphase
  · intro hnt he
    unfold handle_generic_phase
    rw [if_neg hnt, he]

/-- The agent of `stError` raises "boom".  The attack handler crashes
before invoking it, and the generic handler invokes it once and lets the
exception escape: in neither case is it caught and counted against a
retry budget. -/
theorem C9_counterexample :
    handle_attack_phase stError "P1" 20 () = ([], HOut.err playerSubscriptError) ∧
    handle_generic_phase stError 60 () = ([Ev.agent], HOut.err "boom") := by
  decide

theorem C9_witness :
    handle_attack_phase stError "P1" 5 () = ([], HOut.err playerSubscriptError) ∧
    handle_generic_phase stError 60 () = ([Ev.agent], HOut.err "boom") :=
  ⟨(C9_agent_exception_propagates stError "P1" () pdP1 "boom" 60
      (by decide) (by decide)).1 5,
   (C9_agent_exception_propagates stError "P1" () pdP1 "boom" 60
      (by decide) (by decide)).2 (by decide) rfl⟩

/-! ## C8: the per-turn timeout -/

/-- The fortify loop never reads the agent invocation duration: its
behaviour is identical under any reassignment of `agentTime`. -/
theorem fortifyLoop_time_invariant {σ : Type} (srv : Server σ) (f : σ → Nat)
    (name : String) :
    ∀ fuel (s : σ) (gs : ParsedGameState) (p : ParsedPlayer),
      fortifyLoop (srv.withAgentTime f) name fuel s gs p =
        fortifyLoop srv name fuel s gs p := by
  intro fuel
  induction fuel with
  | zero =>
    intro s gs p
    rfl
  | succ n ih =>
    intro s gs p
    unfold fortifyLoop
    rcases hact : fortify_actions_on_parsed gs p with e | vf
    · rfl
    · dsimp only
      by_cases hv : vf = []
      · rw [if_pos hv, if_pos hv]
        rfl
      · rw [if_neg hv, if_neg hv]
        have he : (srv.withAgentTime f).agentTurn = srv.agentTurn := rfl
        have hgs : (srv.withAgentTime f).getState = srv.getState := rfl
        rw [he, hgs]
        rcases hag : srv.agentTurn s with e | rs
        · rfl
        · obtain ⟨r, s1⟩ := rs
          dsimp only
          by_cases hftc : fortifyTextCall r = true
          · rw [if_pos hftc, if_pos hftc]
            rcases hag2 : srv.agentTurn s1 with e2 | rs2
            · rfl
            · obtain ⟨r2, s2⟩ := rs2
              dsimp only
              rcases hfp : findParsedPlayer (srv.getState s2).players name with _ | p2
              · rfl
              · dsimp only
                rw [ih]
          · rw [if_neg hftc, if_neg hftc]
            rcases hfp : findParsedPlayer (srv.getState s1).players name with _ | p1
            · rfl
            · dsimp only
              rw [ih]

/-- C8 (corrected): only `_handle_generic_phase` — which `start_game`
never dispatches to — bounds the agent invocation by `turn_timeout`,
force-advancing the phase on expiry.  The fortify handler performs no
such bounding: its behaviour is invariant under arbitrary changes of the
invocation duration; and on a Fortify snapshot it raises `TypeError` at
its first rule-engine call before any agent invocation at all. -/
theorem C8_timeout_only_generic {σ : Type} (srv : Server σ) (name : String)
    (s : σ) (t : Nat) (f : σ → Nat) (p : ParsedPlayer)
    (hfind : findParsedPlayer (srv.getState s).players name = some p)
    (hphase : (srv.getState s).phase = GamePhase.FORTIFY) :
    (t < srv.agentTime s →
      handle_generic_phase srv t s = ([Ev.advance], HOut.ok (srv.advancePhase s))) ∧
    (∀ fuel (s2 : σ), handle_fortify_phase (srv.withAgentTime f) name fuel s2 =
      handle_fortify_phase srv name fuel s2) ∧
    (∀ fuel, handle_fortify_phase srv name fuel s =
      ([], HOut.err playerSubscriptError)) := by
  refine ⟨?_, ?_, ?_⟩
  · intro hslow
    unfold handle_generic_phase
    rw [if_pos hslow]
  · intro fuel s2
    unfold handle_fortify_phase
    have hgs : (srv.withAgentTime f).getState = srv.getState := rfl
    rw [hgs]
    dsimp only
    rcases hfp : findParsedPlayer (srv.getState s2).players name with _ | q
    · rfl
    · dsimp only
      rw [fortifyLoop_time_invariant]
  · intro fuel
    exact handle_fortify_crash srv name fuel s p hfind hphase

/-- The agent of `stSlow` takes 1000 time units, far beyond the default
60-second turn timeout; yet the fortify handler's outcome is the same as
with an instantaneous agent — the `TypeError` crash — and no timeout
force-advance happens.  Only the never-dispatched generic handler
advances on expiry. -/
theorem C8_counterexample :
    60 < stSlow.agentTime () ∧
    handle_fortify_phase stSlow "P1" 20 () = ([], HOut.err playerSubscriptError) ∧
    handle_fortify_phase (stSlow.withAgentTime (fun _ => 0)) "P1" 20 () =
      handle_fortify_phase stSlow "P1" 20 () ∧
    handle_generic_phase stSlow 60 () = ([Ev.advance], HOut.ok ()) := by
  decide

theorem C8_witness :
    handle_generic_phase stSlow 60 () = ([Ev.advance], HOut.ok ()) ∧
    handle_fortify_phase (stSlow.withAgentTime (fun _ => 0)) "P1" 3 () =
      handle_fortify_phase stSlow "P1" 3 () ∧
    handle_fortify_phase stSlow "P1" 3 () = ([], HOut.err playerSubscriptError) :=
  ⟨(C8_timeout_only_generic stSlow "P1" () 60 (fun _ => 0) pdP1
      (by decide) (by decide)).1 (by decide),
   (C8_timeout_only_generic stSlow "P1" () 60 (fun _ => 0) pdP1
      (by decide) (by decide)).2.1 3 (),
   (C8_timeout_only_generic stSlow "P1" () 60 (fun _ => 0) pdP1
      (by decide) (by decide)).2.2 3⟩

/-! ## C10: forced card trades -/

/-- A normal return from the trade computation on a parsed player happens
only via the stale-phase guard, and then the trade set is empty. -/
theorem card_trade_ok_shape {gs : ParsedGameState} {pOpt : Option ParsedPlayer}
    {trades : List (List Nat)}
    (h : card_trade_actions_on_parsed gs pOpt = Except.ok trades) :
    gs.phase ≠ GamePhase.REINFORCE ∧ trades = [] := by
  unfold card_trade_actions_on_parsed at h
  by_cases hp : gs.phase ≠ GamePhase.REINFORCE
  · rw [if_pos hp] at h
    injection h with h2
    exact ⟨hp, h2.symm⟩
  · rw [if_neg hp] at h
    rcases pOpt with _ | q
    · cases h
    · cases h

/-- The forced-trade loop is a no-op on an empty trade set. -/
theorem tradeLoop_nil {σ : Type} (srv : Server σ) (name : String)
    (fuel : Nat) (s : σ) (gs : ParsedGameState) (p : ParsedPlayer) :
    tradeLoop srv name fuel s gs (some p) [] = ([], HOut.ok (s, gs, some p)) := by
  have hc : ¬ (5 ≤ p.cards.length ∧ ([] : List (List Nat)) ≠ []) :=
    fun hh => hh.2 rfl
  cases fuel with
  | zero => unfold tradeLoop; rw [if_neg hc]
  | succ n => unfold tradeLoop; rw [if_neg hc]

/-- C10 (corrected): the forced-trade code is unreachable.  On a
Reinforce snapshot with the player present and owning territories, the
initial `get_valid_card_trade_actions(game_state, my_player)` call at
line 134 — outside any `try` — raises `TypeError` on the parsed `Player`
dataclass, so the handler aborts before any trade and before consulting
the agent; and on every parsed snapshot whatsoever the reinforce
handler's event trace contains no trade and no agent invocation — every
emitted event is a phase advance. -/
theorem C10_forced_card_trades {σ : Type} (srv : Server σ) (name : String)
    (s : σ) (p : ParsedPlayer)
    (hfind : findParsedPlayer (srv.getState s).players name = some p) :
    ((srv.getState s).phase = GamePhase.REINFORCE → p.territories ≠ [] →
      ∀ fuel, handle_reinforce_phase srv name fuel s =
        ([], HOut.err playerSubscriptError)) ∧
    (∀ fuel ev, ev ∈ (handle_reinforce_phase srv name fuel s).1 →
      ev = Ev.advance) := by
  constructor
  · intro hph ht fuel
    exact handle_reinforce_crash srv name fuel s p hfind hph ht
  · intro fuel ev hev
    unfold handle_reinforce_phase at hev
    dsimp only at hev
    rw [hfind] at hev
    dsimp only at hev
    by_cases ht : p.territories = []
    · rw [if_pos ht] at hev
      exact absurd hev (List.not_mem_nil ev)
    · rw [if_neg ht] at hev
      rcases hc : card_trade_actions_on_parsed (srv.getState s) (some p)
        with e | trades
      · rw [hc] at hev
        dsimp only at hev
        exact absurd hev (List.not_mem_nil ev)
      · obtain ⟨hph, htr⟩ := card_trade_ok_shape hc
        subst htr
        rw [hc] at hev
        dsimp only at hev
        rw [tradeLoop_nil] at hev
        dsimp only at hev
        by_cases hz : srv.getReinforcement s = 0
        · rw [if_pos hz] at hev
          simp only [List.nil_append, List.mem_singleton] at hev
          exact hev
        · rw [if_neg hz] at hev
          have hra : reinforce_actions_on_parsed (srv.getState s) (some p)
              (srv.getReinforcement s) = Except.ok [] := by
            unfold reinforce_actions_on_parsed
            rw [if_pos hph]
          rw [hra] at hev
          dsimp only at hev
          rw [if_pos rfl] at hev
          simp only [List.nil_append, List.mem_singleton] at hev
          exact hev

/-- `pdTrade` holds five cards whose kinds admit a trade — the rule
engine on the dictionary shape finds a non-empty trade set — yet the
reinforce handler raises `TypeError` at the initial trade computation:
no trade, no agent consultation, no phase advance. -/
theorem C10_counterexample :
    5 ≤ pdTrade.cards.length ∧
    get_valid_card_trade_actions gsDictTrade pDictTrade ≠ [] ∧
    handle_reinforce_phase stTrade "P1" 3 () =
      ([], HOut.err playerSubscriptError) := by
  decide

theorem C10_witness :
    handle_reinforce_phase stTrade "P1" 5 () =
      ([], HOut.err playerSubscriptError) :=
  (C10_forced_card_trades stTrade "P1" () pdTrade (by decide)).1
    (by decide) (by decide) 5
